import Mathlib

/-!
Verification of the Modbus-style frame codec (`src/mbap.rs`) and channel
engine (`src/channel.rs`) of this repository, as a shallow embedding.

Bytes are modelled as `Nat` with explicit `% 256` / `% 2^16` where the
source truncates; a byte stream is a `List Nat`; fallible operations
return `Except`.
-/

namespace Rodbus

instance {ε α : Type} [DecidableEq ε] [DecidableEq α] : DecidableEq (Except ε α) := fun a b =>
  match a, b with
  | .ok x, .ok y =>
      if h : x = y then .isTrue (by rw [h]) else .isFalse (by intro hc; injection hc; contradiction)
  | .error x, .error y =>
      if h : x = y then .isTrue (by rw [h]) else .isFalse (by intro hc; injection hc; contradiction)
  | .ok _, .error _ => .isFalse (by intro hc; injection hc)
  | .error _, .ok _ => .isFalse (by intro hc; injection hc)

/-- `FrameError` variants of `crate::FrameError` used by `src/mbap.rs`. -/
inductive FrameError where
  | UnknownProtocolId (id : Nat)
  | BadADULength (len : Nat)
  deriving DecidableEq

/-- `crate::Error`. The `Frame` embedding is used by `src/mbap.rs`; the
`Connect`/`Tx`/`Rx`/`Serialization` variants are the ones `src/channel.rs`
constructs. `InsufficientBytes`, `WriteOverflow` and `BadU16Cast` model the
cursor / `u16::try_from` failures propagated by `?` in `src/mbap.rs`
(their concrete variant names are not under `src/`; modelled from the spec's
error-kind list). -/
inductive Error where
  | Frame (e : FrameError)
  | InsufficientBytes
  | WriteOverflow
  | BadU16Cast
  | Connect
  | Tx
  | Rx
  | Serialization
  deriving DecidableEq

/-- Modelled from the spec: `crate::frame::Frame` — unit id, transaction id
and raw payload bytes ("Pure data, no behavior beyond construction"). -/
structure Frame where
  unit_id : Nat
  tx_id : Nat
  payload : List Nat
  deriving DecidableEq

/-- `MBAPHeader` from `src/mbap.rs`. -/
structure MBAPHeader where
  tx_id : Nat
  length : Nat
  unit_id : Nat
  deriving DecidableEq

/-- `ParseState` from `src/mbap.rs`. -/
inductive ParseState where
  | Begin
  | Header (h : MBAPHeader)
  deriving DecidableEq

/-- `MBAP_HEADER_LENGTH` from `src/mbap.rs`. -/
def MBAP_HEADER_LENGTH : Nat := 7

/-- Modelled from the spec: `Frame::MAX_ADU_LENGTH` (not under `src/`).
The spec fixes the payload-unit cap at 253 bytes and the maximum frame at
`7 + 253 = 260`, so `MAX_MBAP_FRAME_LENGTH = MBAP_HEADER_LENGTH +
Frame::MAX_ADU_LENGTH` forces this value. -/
def MAX_ADU_LENGTH : Nat := 253

/-- `MAX_MBAP_FRAME_LENGTH` from `src/mbap.rs`. -/
def MAX_MBAP_FRAME_LENGTH : Nat := MBAP_HEADER_LENGTH + MAX_ADU_LENGTH

/-- Modelled from the spec: `ReadBuffer::read_u16_be` — big-endian 16-bit
read consuming two bytes from the caller-owned cursor; a failing read
consumes nothing. -/
def read_u16_be : List Nat → Except Error (Nat × List Nat)
  | a :: b :: rest => .ok (a * 256 + b, rest)
  | _ => .error .InsufficientBytes

/-- Modelled from the spec: `ReadBuffer::read_u8` — one-byte read. -/
def read_u8 : List Nat → Except Error (Nat × List Nat)
  | a :: rest => .ok (a, rest)
  | _ => .error .InsufficientBytes

/-- Modelled from the spec: `ReadBuffer::read` — consume exactly `n` bytes,
failing (without consuming) when fewer are available. -/
def readBytes (n : Nat) (cursor : List Nat) : Except Error (List Nat × List Nat) :=
  if cursor.length < n then .error .InsufficientBytes
  else .ok (cursor.take n, cursor.drop n)

/-- `MBAPParser::parse_header` from `src/mbap.rs`: read `tx_id`,
`protocol_id`, `length` (all 2-byte BE) and `unit_id` (1 byte), then check
`protocol_id == 0` and `length <= Frame::MAX_ADU_LENGTH`, in that order.
The second component is the cursor after the call (reads consume even when
a later check fails). -/
def parse_header (cursor : List Nat) : Except Error MBAPHeader × List Nat :=
  match read_u16_be cursor with
  | .error e => (.error e, cursor)
  | .ok (tx_id, c1) =>
    match read_u16_be c1 with
    | .error e => (.error e, c1)
    | .ok (protocol_id, c2) =>
      match read_u16_be c2 with
      | .error e => (.error e, c2)
      | .ok (length, c3) =>
        match read_u8 c3 with
        | .error e => (.error e, c3)
        | .ok (unit_id, c4) =>
          if protocol_id ≠ 0 then
            (.error (.Frame (.UnknownProtocolId protocol_id)), c4)
          else if length > MAX_ADU_LENGTH then
            (.error (.Frame (.BadADULength length)), c4)
          else
            (.ok ⟨tx_id, length, unit_id⟩, c4)

/-- `MBAPParser::parse_body` from `src/mbap.rs`: the frame payload is
`cursor.read(header.length)`. -/
def parse_body (h : MBAPHeader) (cursor : List Nat) : Except Error (Frame × List Nat) :=
  match readBytes h.length cursor with
  | .error e => (.error e)
  | .ok (bytes, rest) => .ok (⟨h.unit_id, h.tx_id, bytes⟩, rest)

/-- Result of one `MBAPParser::parse` call: the parser state after the call
(`self.state`), the returned `Result<Option<Frame>>`, and the cursor after
the call. -/
structure ParseResult where
  state : ParseState
  output : Except Error (Option Frame)
  cursor : List Nat
  deriving DecidableEq

/-- The `ParseState::Header` arm of `MBAPParser::parse` from `src/mbap.rs`:
if fewer than `header.length` bytes are available return `Ok(None)` without
consuming; otherwise run `parse_body`, reset the state to `Begin` and emit
the frame. On a `parse_body` error the `?` returns before the state is
reset (the guard makes that branch unreachable, but it is kept faithful to
the source). -/
def parse_awaiting_body (h : MBAPHeader) (cursor : List Nat) : ParseResult :=
  if cursor.length < h.length then ⟨.Header h, .ok none, cursor⟩
  else
    match parse_body h cursor with
    | .error e => ⟨.Header h, .error e, cursor⟩
    | .ok (f, rest) => ⟨.Begin, .ok (some f), rest⟩

/-- `MBAPParser::parse` from `src/mbap.rs`. In the `Begin` arm, fewer than
`MBAP_HEADER_LENGTH` available bytes yield `Ok(None)`; otherwise
`parse_header` runs (a `?` failure leaves `self.state` at `Begin`) and the
function self-drives into the body arm with the new header. -/
def parse (state : ParseState) (cursor : List Nat) : ParseResult :=
  match state with
  | .Header h => parse_awaiting_body h cursor
  | .Begin =>
    if cursor.length < MBAP_HEADER_LENGTH then ⟨.Begin, .ok none, cursor⟩
    else
      match parse_header cursor with
      | (.error e, c') => ⟨.Begin, .error e, c'⟩
      | (.ok h, c') => parse_awaiting_body h c'

/-- Big-endian byte pair of a 16-bit write (`write_u16`); agrees with the
`as u16` / `u16::try_from` truncation of the source for all `Nat` inputs. -/
def u16beBytes (v : Nat) : List Nat := [v / 256 % 256, v % 256]

/-- `MBAPFormatter::format` from `src/mbap.rs` over its zero-initialised
260-byte scratch buffer: write `tx_id` (2B BE), protocol id `0` (2B BE),
skip 2 bytes for the length, write `unit_id`, let the message serializer
append `msg` (`adu_length` bytes, failing with a cursor overflow when the
buffer is exceeded), then seek back and patch `length = adu_length + 1`
(`u16::try_from` failure modelled by `BadU16Cast`); return the first
`MBAP_HEADER_LENGTH + adu_length` buffer bytes. -/
def format (tx_id : Nat) (unit_id : Nat) (msg : List Nat) : Except Error (List Nat) :=
  if MBAP_HEADER_LENGTH + msg.length > MAX_MBAP_FRAME_LENGTH then .error .WriteOverflow
  else if msg.length + 1 ≥ 65536 then .error .BadU16Cast
  else .ok (u16beBytes tx_id ++ [0, 0] ++ u16beBytes (msg.length + 1) ++ [unit_id % 256] ++ msg)

/-- Computation of `parse_header` on a cursor holding a full header with
protocol id zero and an in-bounds length, followed by `tail`. -/
theorem parse_header_ok (t1 t0 l1 l0 u : Nat) (tail : List Nat)
    (hL : l1 * 256 + l0 ≤ MAX_ADU_LENGTH) :
    parse_header (t1 :: t0 :: 0 :: 0 :: l1 :: l0 :: u :: tail) =
      (.ok ⟨t1 * 256 + t0, l1 * 256 + l0, u⟩, tail) := by
  simp only [parse_header, read_u16_be, read_u8]
  rw [if_neg (by omega), if_neg (by omega)]

/-- Claim C5: formatting `transaction_id = 7`, `unit_id = 42` with the
message serializer emitting the two bytes `[0x03, 0x04]` (function code
`0x03` followed by the data byte `0x04`, as in the repository's own
`correctly_formats_frame` test) yields exactly
`[0x00,0x07, 0x00,0x00, 0x00,0x03, 0x2A, 0x03, 0x04]`, whose header length
field (bytes 4–5) is the big-endian encoding of `3`. -/
theorem format_example_bytes :
    format 7 42 [3, 4] = .ok ([0, 7] ++ [0, 0] ++ u16beBytes 3 ++ [42] ++ [3, 4]) ∧
    format 7 42 [3, 4] = .ok [0x00, 0x07, 0x00, 0x00, 0x00, 0x03, 0x2A, 0x03, 0x04] := by
  exact ⟨by decide, by decide⟩

/-- Claim C1 (failing evaluation): feeding the formatter's entire output for
`tx_id = 7`, `unit_id = 42`, message bytes `[3, 4]` back to the parser does
NOT yield a frame: the formatter writes header length `3` (counting the
unit-id byte that sits inside the 7-byte header), while the parser, having
already consumed the unit id with the header, still waits for `3` body
bytes although only `2` remain — it returns `Ok(None)` stuck in the
`Header` state. -/
theorem format_then_parse_yields_no_frame :
    format 7 42 [3, 4] = .ok [0, 7, 0, 0, 0, 3, 42, 3, 4] ∧
    parse .Begin [0, 7, 0, 0, 0, 3, 42, 3, 4] =
      ⟨.Header ⟨7, 3, 42⟩, .ok none, [3, 4]⟩ := by
  exact ⟨by decide, by decide⟩

/-- Claim C6: a header declaring `length > MAX_ADU_LENGTH` (protocol id
zero) always yields the `BadADULength` error, whatever bytes — if any —
follow the 7 header bytes. -/
theorem oversized_length_yields_bad_adu_length (t1 t0 l1 l0 u : Nat) (rest : List Nat)
    (hL : l1 * 256 + l0 > MAX_ADU_LENGTH) :
    parse .Begin (t1 :: t0 :: 0 :: 0 :: l1 :: l0 :: u :: rest) =
      ⟨.Begin, .error (.Frame (.BadADULength (l1 * 256 + l0))), rest⟩ := by
  simp only [parse, List.length_cons, MBAP_HEADER_LENGTH]
  rw [if_neg (by omega)]
  simp only [parse_header, read_u16_be, read_u8]
  rw [if_neg (by omega), if_pos (by omega)]

theorem oversized_length_yields_bad_adu_length_witness :
    parse .Begin [0, 1, 0, 0, 1, 0, 5] =
      ⟨.Begin, .error (.Frame (.BadADULength 256)), []⟩ :=
  oversized_length_yields_bad_adu_length 0 1 1 0 5 [] (by decide)

/-- Claim C7: a non-zero protocol id field yields `UnknownProtocolId`,
before the length check — the length bytes `l1, l0` here are arbitrary, in
particular they may be far out of bounds. -/
theorem nonzero_protocol_id_yields_error (t1 t0 p1 p0 l1 l0 u : Nat) (rest : List Nat)
    (hp : p1 * 256 + p0 ≠ 0) :
    parse .Begin (t1 :: t0 :: p1 :: p0 :: l1 :: l0 :: u :: rest) =
      ⟨.Begin, .error (.Frame (.UnknownProtocolId (p1 * 256 + p0))), rest⟩ := by
  simp only [parse, List.length_cons, MBAP_HEADER_LENGTH]
  rw [if_neg (by omega)]
  simp only [parse_header, read_u16_be, read_u8]
  rw [if_pos (by omega)]

theorem nonzero_protocol_id_yields_error_witness :
    parse .Begin [0, 0, 0, 1, 255, 255, 5] =
      ⟨.Begin, .error (.Frame (.UnknownProtocolId 1)), []⟩ :=
  nonzero_protocol_id_yields_error 0 0 0 1 255 255 5 [] (by decide)

/-- The incremental-feeding harness of the spec's fragmentation property: the
caller-owned cursor keeps the bytes the parser left unconsumed, each arriving
chunk is appended to it, and `MBAPParser::parse` is re-invoked once per chunk.
Returns the list of per-call results, the final parser state and the final
cursor. -/
def runChunks : ParseState → List Nat → List (List Nat) →
    List (Except Error (Option Frame)) × ParseState × List Nat
  | state, buffer, [] => ([], state, buffer)
  | state, buffer, c :: cs =>
    let r := parse state (buffer ++ c)
    let nxt := runChunks r.state r.cursor cs
    (r.output :: nxt.1, nxt.2.1, nxt.2.2)

theorem parse_begin_short (c : List Nat) (h : c.length < MBAP_HEADER_LENGTH) :
    parse .Begin c = ⟨.Begin, .ok none, c⟩ := by
  simp [parse, h]

theorem parse_body_short (hh : MBAPHeader) (c : List Nat) (h : c.length < hh.length) :
    parse (.Header hh) c = ⟨.Header hh, .ok none, c⟩ := by
  simp [parse, parse_awaiting_body, h]

theorem parse_body_complete (T L u : Nat) (body : List Nat) (h : body.length = L) :
    parse (.Header ⟨T, L, u⟩) body = ⟨.Begin, .ok (some ⟨u, T, body⟩), []⟩ := by
  subst h
  simp [parse, parse_awaiting_body, parse_body, readBytes]

theorem parse_begin_header_only (t1 t0 l1 l0 u : Nat) (x : List Nat)
    (hL : l1 * 256 + l0 ≤ MAX_ADU_LENGTH) (hx : x.length < l1 * 256 + l0) :
    parse .Begin (t1 :: t0 :: 0 :: 0 :: l1 :: l0 :: u :: x) =
      ⟨.Header ⟨t1 * 256 + t0, l1 * 256 + l0, u⟩, .ok none, x⟩ := by
  simp only [parse, List.length_cons, MBAP_HEADER_LENGTH]
  rw [if_neg (by omega), parse_header_ok t1 t0 l1 l0 u x hL]
  simp only [parse_awaiting_body]
  rw [if_pos hx]

theorem parse_begin_complete (t1 t0 l1 l0 u : Nat) (body : List Nat)
    (hL : l1 * 256 + l0 ≤ MAX_ADU_LENGTH) (hbody : body.length = l1 * 256 + l0) :
    parse .Begin (t1 :: t0 :: 0 :: 0 :: l1 :: l0 :: u :: body) =
      ⟨.Begin, .ok (some ⟨u, t1 * 256 + t0, body⟩), []⟩ := by
  simp only [parse, List.length_cons, MBAP_HEADER_LENGTH]
  rw [if_neg (by omega), parse_header_ok t1 t0 l1 l0 u body hL]
  exact parse_body_complete (t1 * 256 + t0) (l1 * 256 + l0) u body hbody

theorem runChunks_drain (cs : List (List Nat)) (h : cs.flatten = []) :
    runChunks .Begin [] cs = (List.replicate cs.length (.ok none), .Begin, []) := by
  induction cs with
  | nil => rfl
  | cons c cs ih =>
    rw [List.flatten_cons] at h
    rcases List.append_eq_nil.mp h with ⟨hc, hcs⟩
    subst hc
    simp only [runChunks, List.nil_append, parse_begin_short [] (by decide)]
    rw [ih hcs]
    simp [List.replicate_succ]

theorem runChunks_body_phase (T L u : Nat) (body : List Nat) (hbody : body.length = L) :
    ∀ (cs : List (List Nat)) (r : List Nat), r ++ cs.flatten = body → r.length < L →
    ∃ k, k < cs.length ∧
      runChunks (.Header ⟨T, L, u⟩) r cs =
        (List.replicate k (.ok none) ++
           .ok (some ⟨u, T, body⟩) :: List.replicate (cs.length - (k + 1)) (.ok none),
         .Begin, []) := by
  intro cs
  induction cs with
  | nil =>
    intro r hr hlt
    exfalso
    have := congrArg List.length hr
    simp at this
    omega
  | cons c cs ih =>
    intro r hr hlt
    have hfl : (r ++ c) ++ cs.flatten = body := by
      rw [List.append_assoc]
      simpa using hr
    by_cases hb : (r ++ c).length < L
    · obtain ⟨k, hk, heq⟩ := ih (r ++ c) hfl hb
      refine ⟨k + 1, by simp; omega, ?_⟩
      simp only [runChunks, parse_body_short ⟨T, L, u⟩ (r ++ c) hb]
      rw [heq]
      simp [List.replicate_succ, Nat.succ_sub_succ]
    · have hlen := congrArg List.length hfl
      rw [List.length_append] at hlen
      have hflat : cs.flatten = [] := by
        apply List.eq_nil_of_length_eq_zero
        omega
      have hbc : r ++ c = body := by
        rw [hflat, List.append_nil] at hfl
        exact hfl
      refine ⟨0, by simp, ?_⟩
      simp only [runChunks, hbc, parse_body_complete T L u body hbody]
      rw [runChunks_drain cs hflat]
      simp

theorem runChunks_header_phase (t1 t0 l1 l0 u : Nat) (body : List Nat)
    (hL : l1 * 256 + l0 ≤ MAX_ADU_LENGTH) (hbody : body.length = l1 * 256 + l0) :
    ∀ (cs : List (List Nat)) (r : List Nat),
      r ++ cs.flatten = t1 :: t0 :: 0 :: 0 :: l1 :: l0 :: u :: body →
      r.length < MBAP_HEADER_LENGTH →
    ∃ k, k < cs.length ∧
      runChunks .Begin r cs =
        (List.replicate k (.ok none) ++
           .ok (some ⟨u, t1 * 256 + t0, body⟩) :: List.replicate (cs.length - (k + 1)) (.ok none),
         .Begin, []) := by
  intro cs
  induction cs with
  | nil =>
    intro r hr hlt
    exfalso
    have := congrArg List.length hr
    simp [MBAP_HEADER_LENGTH] at this hlt
    omega
  | cons c cs ih =>
    intro r hr hlt
    have hfl : (r ++ c) ++ cs.flatten = t1 :: t0 :: 0 :: 0 :: l1 :: l0 :: u :: body := by
      rw [List.append_assoc]
      simpa using hr
    by_cases hb7 : (r ++ c).length < MBAP_HEADER_LENGTH
    · obtain ⟨k, hk, heq⟩ := ih (r ++ c) hfl hb7
      refine ⟨k + 1, by simp; omega, ?_⟩
      simp only [runChunks, parse_begin_short (r ++ c) hb7]
      rw [heq]
      simp [List.replicate_succ, Nat.succ_sub_succ]
    · have hsplit : (r ++ c).take 7 ++ ((r ++ c).drop 7 ++ cs.flatten) =
          [t1, t0, 0, 0, l1, l0, u] ++ body := by
        rw [← List.append_assoc, List.take_append_drop]
        exact hfl
      have h7 : 7 ≤ (r ++ c).length := by
        have := Nat.not_lt.mp hb7
        simpa [MBAP_HEADER_LENGTH] using this
      have htl : ((r ++ c).take 7).length = ([t1, t0, 0, 0, l1, l0, u] : List Nat).length := by
        rw [List.length_take, Nat.min_eq_left h7]
        rfl
      obtain ⟨htake, hdrop⟩ := List.append_inj hsplit htl
      have hbeq : r ++ c = t1 :: t0 :: 0 :: 0 :: l1 :: l0 :: u :: ((r ++ c).drop 7) := by
        conv_lhs => rw [← List.take_append_drop 7 (r ++ c)]
        rw [htake]
        rfl
      by_cases hbd : ((r ++ c).drop 7).length < l1 * 256 + l0
      · obtain ⟨k, hk, heq⟩ :=
          runChunks_body_phase (t1 * 256 + t0) (l1 * 256 + l0) u body hbody cs
            ((r ++ c).drop 7) hdrop hbd
        refine ⟨k + 1, by simp; omega, ?_⟩
        simp only [runChunks]
        rw [hbeq, parse_begin_header_only t1 t0 l1 l0 u ((r ++ c).drop 7) hL hbd]
        simp only [heq]
        simp [List.replicate_succ, Nat.succ_sub_succ]
      · have hdl := congrArg List.length hdrop
        rw [List.length_append] at hdl
        have hflat : cs.flatten = [] := by
          apply List.eq_nil_of_length_eq_zero
          omega
        have hdb : (r ++ c).drop 7 = body := by
          rw [hflat, List.append_nil] at hdrop
          exact hdrop
        refine ⟨0, by simp, ?_⟩
        simp only [runChunks]
        rw [hbeq, hdb, parse_begin_complete t1 t0 l1 l0 u body hL hbody]
        simp only [runChunks_drain cs hflat]
        simp

/-- Claim C4: for a well-formed frame byte sequence — a 7-byte header with
protocol id `0` and in-bounds length field `l1*256 + l0`, followed by
exactly that many body bytes — and any partition of it into consecutive
chunks, feeding the chunks to `MBAPParser::parse` one by one emits exactly
one `Frame`, equal to the one a single whole-sequence call emits, and every
other call (all those before the frame is complete, and any after) returns
`Ok(None)`. -/
theorem chunked_parse_emits_single_frame (t1 t0 l1 l0 u : Nat) (body : List Nat)
    (cs : List (List Nat))
    (hL : l1 * 256 + l0 ≤ MAX_ADU_LENGTH)
    (hbody : body.length = l1 * 256 + l0)
    (hcs : cs.flatten = t1 :: t0 :: 0 :: 0 :: l1 :: l0 :: u :: body) :
    parse .Begin (t1 :: t0 :: 0 :: 0 :: l1 :: l0 :: u :: body) =
      ⟨.Begin, .ok (some ⟨u, t1 * 256 + t0, body⟩), []⟩ ∧
    ∃ k, k < cs.length ∧
      (runChunks .Begin [] cs).1 =
        List.replicate k (.ok none) ++
          .ok (some ⟨u, t1 * 256 + t0, body⟩) ::
            List.replicate (cs.length - (k + 1)) (.ok none) := by
  constructor
  · exact parse_begin_complete t1 t0 l1 l0 u body hL hbody
  · obtain ⟨k, hk, heq⟩ :=
      runChunks_header_phase t1 t0 l1 l0 u body hL hbody cs []
        (by simpa using hcs) (by simp [MBAP_HEADER_LENGTH])
    exact ⟨k, hk, by rw [heq]⟩

theorem chunked_parse_emits_single_frame_witness :
    parse .Begin [0, 7, 0, 0, 0, 1, 42, 9] =
      ⟨.Begin, .ok (some ⟨42, 7, [9]⟩), []⟩ ∧
    ∃ k, k < 8 ∧
      (runChunks .Begin [] [[0], [7], [0], [0], [0], [1], [42], [9]]).1 =
        List.replicate k (.ok none) ++
          .ok (some ⟨42, 7, [9]⟩) :: List.replicate (8 - (k + 1)) (.ok none) :=
  chunked_parse_emits_single_frame 0 7 0 1 42 [9]
    [[0], [7], [0], [0], [0], [1], [42], [9]]
    (by decide) (by decide) (by decide)

theorem parse_awaiting_body_cases (hh : MBAPHeader) (c : List Nat) :
    parse_awaiting_body hh c = ⟨.Header hh, .ok none, c⟩ ∨
    parse_awaiting_body hh c =
      ⟨.Begin, .ok (some ⟨hh.unit_id, hh.tx_id, c.take hh.length⟩), c.drop hh.length⟩ := by
  by_cases hlt : c.length < hh.length
  · left
    simp [parse_awaiting_body, hlt]
  · right
    simp [parse_awaiting_body, parse_body, readBytes, hlt]

/-- Claim C9: whenever `MBAPParser::parse` returns `Ok(Some(frame))` or
`Err(_)`, the parser state left behind is `Begin`; the `Header` state can
only be left behind by a call that returned `Ok(None)` (after consuming a
complete header). -/
theorem parse_state_begin_after_emit_or_error (s : ParseState) (c : List Nat)
    (h : (∃ f, (parse s c).output = .ok (some f)) ∨ (∃ e, (parse s c).output = .error e)) :
    (parse s c).state = .Begin := by
  cases s with
  | Header hh =>
    rcases parse_awaiting_body_cases hh c with hc | hc
    · rw [show parse (.Header hh) c = parse_awaiting_body hh c from rfl, hc] at h ⊢
      rcases h with ⟨f, hf⟩ | ⟨e, he⟩ <;> simp_all
    · rw [show parse (.Header hh) c = parse_awaiting_body hh c from rfl, hc]
  | Begin =>
    by_cases hlen : c.length < MBAP_HEADER_LENGTH
    · simp [parse, hlen]
    · rcases hph : parse_header c with ⟨res, c'⟩
      cases res with
      | error e => simp [parse, hlen, hph]
      | ok hh =>
        have hstep : parse .Begin c = parse_awaiting_body hh c' := by
          simp [parse, hlen, hph]
        rw [hstep] at h ⊢
        rcases parse_awaiting_body_cases hh c' with hc | hc
        · rw [hc] at h ⊢
          rcases h with ⟨f, hf⟩ | ⟨e, he⟩ <;> simp_all
        · rw [hc]

theorem parse_state_begin_after_emit_or_error_witness :
    (parse .Begin [0, 0, 0, 1, 255, 255, 5]).state = .Begin :=
  parse_state_begin_after_emit_or_error .Begin [0, 0, 0, 1, 255, 255, 5]
    (Or.inr ⟨.Frame (.UnknownProtocolId 1), by decide⟩)

/-- `MAX_PDU_SIZE` from `src/channel.rs`. -/
def MAX_PDU_SIZE : Nat := 253

/-- `MBAP_SIZE` from `src/channel.rs`. -/
def MBAP_SIZE : Nat := 7

/-- `MAX_ADU_SIZE` from `src/channel.rs` (the engine's scratch-buffer size). -/
def MAX_ADU_SIZE : Nat := MAX_PDU_SIZE + MBAP_SIZE

/-- Modelled from the spec: the transport's answers to the engine's I/O
calls while it serves one request (`TcpStream::connect`, `write`, the two
`read_exact` calls). `headerRead = some bs` means the 8-byte header read
succeeded and delivered `bs`; `bodyRead = some bs` likewise for the body
read. -/
structure SocketBehavior where
  connectOk : Bool
  writeOk : Bool
  headerRead : Option (List Nat)
  bodyRead : Option (List Nat)

/-- Modelled from the spec: the per-operation Service capability as the
engine sees one queued request — the target unit id, the constant function
code, the request's serialized bytes, and the response parser
(`ResponseType::parse` keyed by the original request; `none` = malformed). -/
structure ServiceReq (R : Type) where
  unitId : Nat
  funcCode : Nat
  ser : List Nat
  respParse : List Nat → Option R

/-- `ChannelServer::write_request` from `src/channel.rs` over the current
scratch-buffer contents: write the transaction id (2B BE), protocol id `0`
(2B BE), skip 2 bytes, write the unit id, the function code and the
serialized request (any cursor failure is `Error::Serialization`); seek
back and patch `length = position - MBAP_SIZE + 1`; return
`buffer[..MBAP_SIZE + length]` (note: one byte more than was written — the
trailing byte is whatever the buffer held) together with the new buffer
contents. -/
def write_request (buffer : List Nat) (id : Nat) (transaction_id : Nat) (funcCode : Nat)
    (ser : List Nat) : Except Error (List Nat × List Nat) :=
  if buffer.length < 8 + ser.length then .error .Serialization
  else
    let length := ser.length + 2
    let written := u16beBytes transaction_id ++ [0, 0] ++ u16beBytes length ++
      [id % 256, funcCode % 256] ++ ser
    let buffer' := written ++ buffer.drop (8 + ser.length)
    .ok (buffer'.take (MBAP_SIZE + length), buffer')

/-- `ChannelServer::try_open_socket` from `src/channel.rs`: connect only
when no socket is held; a failed attempt leaves `None`. -/
def try_open_socket (socket : Option Unit) (connectOk : Bool) : Option Unit :=
  if socket.isNone then (if connectOk then some () else none) else socket

/-- Decode of the 8 header bytes the engine reads in
`ChannelServer::handle` (`transaction_id`, `protocol_id`, `length` as
2-byte BE, then `unit_id` and `func_code`); the `.unwrap()` calls cannot
fail when 8 bytes were delivered — fewer map to `none`. -/
def decode_header8 : List Nat → Option (Nat × Nat × Nat × Nat × Nat)
  | t1 :: t0 :: p1 :: p0 :: l1 :: l0 :: uu :: fc :: _ =>
      some (t1 * 256 + t0, p1 * 256 + p0, l1 * 256 + l0, uu, fc)
  | _ => none

/-- What one `ChannelServer::handle` call did: `panic` marks the executions
in which the Rust code panics (`length as usize - 2` underflow, or slicing
`buffer[..length - 2]` beyond the 260-byte array); otherwise the returned
`Result`. -/
inductive HandleOutcome (R : Type) where
  | panic
  | result (r : Except Error R)
  deriving DecidableEq

/-- Observable effects of one `ChannelServer::handle` call: its outcome,
`self.socket` afterwards, `self.buffer` afterwards, and the frame slice
passed to `socket.write` (if the call got that far). -/
structure HandleTrace (R : Type) where
  outcome : HandleOutcome R
  socketAfter : Option Unit
  buffer : List Nat
  written : Option (List Nat)

/-- `ChannelServer::handle` from `src/channel.rs`: open the socket lazily;
without a socket fail with `Error::Connect`; otherwise serialize with
`write_request(buffer, id, 0x0000, req)`, send it (`Error::Tx` on failure),
read the 8-byte header (`Error::Rx` on failure), decode it, slice
`buffer[..length - 2]` — panicking when `length < 2` (usize underflow) or
`length - 2 > MAX_ADU_SIZE` (slice out of range) — read the body
(`Error::Rx` on failure) and hand it to the response parser (`none` maps to
`Error::Rx`). The socket is never dropped on failure. -/
def handle {R : Type} (socket0 : Option Unit) (buffer : List Nat) (b : SocketBehavior)
    (req : ServiceReq R) : HandleTrace R :=
  let socket := try_open_socket socket0 b.connectOk
  match socket with
  | none => ⟨.result (.error .Connect), none, buffer, none⟩
  | some s =>
    match write_request buffer req.unitId 0 req.funcCode req.ser with
    | .error e => ⟨.result (.error e), some s, buffer, none⟩
    | .ok (msg, buf1) =>
      if !b.writeOk then ⟨.result (.error .Tx), some s, buf1, some msg⟩
      else
        match b.headerRead with
        | none => ⟨.result (.error .Rx), some s, buf1, some msg⟩
        | some hdr =>
          let buf2 := hdr.take 8 ++ buf1.drop 8
          match decode_header8 hdr with
          | none => ⟨.panic, some s, buf2, some msg⟩
          | some (_tx, _proto, length, _unit, _fc) =>
            if length < 2 then ⟨.panic, some s, buf2, some msg⟩
            else if length - 2 > MAX_ADU_SIZE then ⟨.panic, some s, buf2, some msg⟩
            else
              match b.bodyRead with
              | none => ⟨.result (.error .Rx), some s, buf2, some msg⟩
              | some bodyBytes =>
                let buf3 := bodyBytes.take (length - 2) ++ buf2.drop (length - 2)
                match req.respParse bodyBytes with
                | none => ⟨.result (.error .Rx), some s, buf3, some msg⟩
                | some resp => ⟨.result (.ok resp), some s, buf3, some msg⟩

/-- `ChannelServer::run` + `handle_request` from `src/channel.rs` over a
finite queue of requests, each paired with the transport behavior it will
meet: per dequeued request `handle` runs and its result is sent — once — to
that request's oneshot slot (first component: the per-slot reply lists, in
queue order); a panic unwinds the engine task before `reply_to.send`, so
the panicking request's slot stays empty and no later request is served
(second component: whether the engine died). -/
def run {R : Type} : Option Unit → List Nat → List (SocketBehavior × ServiceReq R) →
    List (List (Except Error R)) × Bool
  | _, _, [] => ([], false)
  | socket, buffer, (b, req) :: rest =>
    let t := handle socket buffer b req
    match t.outcome with
    | .panic => ([[]], true)
    | .result r =>
      let nxt := run t.socketAfter t.buffer rest
      ([r] :: nxt.1, nxt.2)

set_option maxRecDepth 8000 in
/-- Claim C2 (counterexample): with an established socket, a failing
`socket.write` makes `handle` return `Err(Error::Tx)` — yet `self.socket`
is still `Some` afterwards: the engine does NOT transition to Disconnected. -/
theorem write_error_socket_retained_cex :
    (handle (some ()) (List.replicate 260 0) ⟨true, false, none, none⟩
      (⟨42, 1, [], fun _ => none⟩ : ServiceReq Unit)).outcome = .result (.error .Tx) ∧
    (handle (some ()) (List.replicate 260 0) ⟨true, false, none, none⟩
      (⟨42, 1, [], fun _ => none⟩ : ServiceReq Unit)).socketAfter = some () := by
  exact ⟨rfl, rfl⟩

/-- Claim C2 (amended): when the engine is Connected, `handle` leaves the
socket exactly as it was for EVERY outcome — write error, read error,
malformed response, panic or success alike; `src/channel.rs` never sets
`self.socket = None`. -/
theorem socket_unchanged_when_connected {R : Type} (buffer : List Nat) (b : SocketBehavior)
    (req : ServiceReq R) :
    (handle (some ()) buffer b req).socketAfter = some () := by
  unfold handle
  have htos : try_open_socket (some ()) b.connectOk = some () := rfl
  rw [htos]
  repeat' split
  all_goals rfl

set_option maxRecDepth 8000 in
theorem socket_unchanged_when_connected_witness :
    (handle (some ()) (List.replicate 260 0) ⟨true, true, none, none⟩
      (⟨42, 1, [], fun _ => none⟩ : ServiceReq Unit)).socketAfter = some () :=
  socket_unchanged_when_connected (List.replicate 260 0) ⟨true, true, none, none⟩
    ⟨42, 1, [], fun _ => none⟩

set_option maxRecDepth 8000 in
/-- Claim C3 (failing evaluation): a connected `handle` that receives a
response header declaring `length = 0` (or `length = 300`) PANICS —
`buffer[..length as usize - 2]` underflows below zero, respectively slices
past the 260-byte array — instead of returning a typed error; the frame
codec, by contrast, turns the same oversized length into the typed
`BadADULength` error. -/
theorem engine_panics_on_bad_length :
    (handle (some ()) (List.replicate 260 0)
      ⟨true, true, some [0, 0, 0, 0, 0, 0, 42, 129], none⟩
      (⟨42, 1, [], fun _ => none⟩ : ServiceReq Unit)).outcome = .panic ∧
    (handle (some ()) (List.replicate 260 0)
      ⟨true, true, some [0, 0, 0, 0, 1, 44, 42, 129], none⟩
      (⟨42, 1, [], fun _ => none⟩ : ServiceReq Unit)).outcome = .panic ∧
    parse .Begin [0, 0, 0, 0, 1, 44, 42] =
      ⟨.Begin, .error (.Frame (.BadADULength 300)), []⟩ := by
  exact ⟨rfl, rfl, by decide⟩

theorem write_request_zero_tx (buffer : List Nat) (id fc : Nat) (ser : List Nat)
    (msg buf' : List Nat)
    (h : write_request buffer id 0 fc ser = .ok (msg, buf')) : msg.take 2 = [0, 0] := by
  unfold write_request at h
  by_cases hb : buffer.length < 8 + ser.length
  · rw [if_pos hb] at h
    exact absurd h (by simp)
  · rw [if_neg hb] at h
    simp only [Except.ok.injEq, Prod.mk.injEq] at h
    obtain ⟨hmsg, -⟩ := h
    subst hmsg
    rw [List.take_take, Nat.min_eq_left (by omega)]
    simp [u16beBytes]

/-- Claim C10: the engine hard-codes transaction id `0x0000` at its single
`write_request` call site, so every frame `handle` ever writes to the
socket starts with the two header bytes `0x00, 0x00`. -/
theorem engine_writes_zero_transaction_id {R : Type} (socket0 : Option Unit)
    (buffer : List Nat) (b : SocketBehavior) (req : ServiceReq R) (msg : List Nat)
    (h : (handle socket0 buffer b req).written = some msg) :
    msg.take 2 = [0, 0] := by
  unfold handle at h
  cases htos : try_open_socket socket0 b.connectOk with
  | none =>
    rw [htos] at h
    exact absurd h (by simp)
  | some s =>
    rw [htos] at h
    cases hw : write_request buffer req.unitId 0 req.funcCode req.ser with
    | error e =>
      rw [hw] at h
      exact absurd h (by simp)
    | ok p =>
      obtain ⟨m, buf1⟩ := p
      rw [hw] at h
      have hm : msg = m := by
        repeat' split at h
        all_goals simp_all
      exact hm ▸ write_request_zero_tx buffer req.unitId req.funcCode req.ser m buf1 hw

set_option maxRecDepth 8000 in
theorem engine_writes_zero_transaction_id_witness :
    ([0, 0, 0, 0, 0, 2, 42, 1, 0] : List Nat).take 2 = [0, 0] :=
  engine_writes_zero_transaction_id (some ()) (List.replicate 260 0)
    ⟨true, false, none, none⟩ (⟨42, 1, [], fun _ => none⟩ : ServiceReq Unit)
    [0, 0, 0, 0, 0, 2, 42, 1, 0] (by decide)

/-- Claim C8: as long as no request makes `handle` panic (success,
`Connect`, `Tx` and `Rx` failures are the non-panicking outcomes), the
engine sends exactly one reply — `Ok` or `Err` — to every dequeued
request's oneshot slot, in queue order, and keeps looping to serve all
subsequent requests. -/
theorem one_reply_per_request {R : Type} (socket0 : Option Unit) (buffer : List Nat)
    (reqs : List (SocketBehavior × ServiceReq R))
    (h : (run socket0 buffer reqs).2 = false) :
    (run socket0 buffer reqs).1.length = reqs.length ∧
    ∀ slot ∈ (run socket0 buffer reqs).1, ∃ r, slot = [r] := by
  induction reqs generalizing socket0 buffer with
  | nil => simp [run]
  | cons p rest ih =>
    obtain ⟨b, req⟩ := p
    cases ho : (handle socket0 buffer b req).outcome with
    | panic =>
      exfalso
      simp [run, ho] at h
    | result r =>
      have hh : run socket0 buffer ((b, req) :: rest) =
          ([r] :: (run (handle socket0 buffer b req).socketAfter
                     (handle socket0 buffer b req).buffer rest).1,
           (run (handle socket0 buffer b req).socketAfter
              (handle socket0 buffer b req).buffer rest).2) := by
        simp [run, ho]
      rw [hh] at h ⊢
      obtain ⟨h1, h2⟩ := ih _ _ h
      refine ⟨by simp [h1], ?_⟩
      intro slot hs
      rcases List.mem_cons.mp hs with hs | hs
      · exact ⟨r, hs⟩
      · exact h2 slot hs

set_option maxRecDepth 8000 in
theorem one_reply_per_request_witness :
    (run none (List.replicate 260 0)
      ([(⟨true, true, some [0, 0, 0, 0, 0, 2, 1, 1], some []⟩, ⟨1, 1, [], fun _ => some 5⟩),
        (⟨true, false, none, none⟩, ⟨1, 1, [], fun _ => some 5⟩)] :
        List (SocketBehavior × ServiceReq Nat))).1.length = 2 ∧
    ∀ slot ∈ (run none (List.replicate 260 0)
      ([(⟨true, true, some [0, 0, 0, 0, 0, 2, 1, 1], some []⟩, ⟨1, 1, [], fun _ => some 5⟩),
        (⟨true, false, none, none⟩, ⟨1, 1, [], fun _ => some 5⟩)] :
        List (SocketBehavior × ServiceReq Nat))).1, ∃ r, slot = [r] := by
  have hlen : ([(⟨true, true, some [0, 0, 0, 0, 0, 2, 1, 1], some []⟩, ⟨1, 1, [], fun _ => some 5⟩),
        (⟨true, false, none, none⟩, ⟨1, 1, [], fun _ => some 5⟩)] :
        List (SocketBehavior × ServiceReq Nat)).length = 2 := rfl
  exact hlen ▸ one_reply_per_request none (List.replicate 260 0) _ rfl

end Rodbus
